import Mathlib

/-!
Shallow embedding of the capture pipeline of the `storage` package of
linkalls/web-archiver (the asset-localizing version of `storage.go`:
rate limiting, redirect resolution, asset extraction/localization,
content validation, HTML path rewriting and the `ArchiveURL`
orchestrator), together with theorems settling the specification
claims about it.

External collaborators (the network, `net/url`, `crypto/md5`,
`golang.org/x/net/html`, the filesystem and the database handle) are
modelled as oracle fields of an `Env` record, so every theorem
quantifies over their behavior; the control flow around them is
translated line by line from the Go source.
-/

namespace Archiver

instance {ε α : Type} [DecidableEq ε] [DecidableEq α] : DecidableEq (Except ε α) := fun
  | .ok a, .ok b =>
    if h : a = b then .isTrue (by rw [h]) else .isFalse (by simp [h])
  | .ok _, .error _ => .isFalse (by simp)
  | .error _, .ok _ => .isFalse (by simp)
  | .error a, .error b =>
    if h : a = b then .isTrue (by rw [h]) else .isFalse (by simp [h])

/-- The `strings.Contains s sub`: `sub` occurs as a contiguous substring of `s`.
Implemented over the character lists of the two strings. -/
def strContainsList (sub : List Char) : List Char → Bool
  | [] => sub.isEmpty
  | c :: rest => sub.isPrefixOf (c :: rest) || strContainsList sub rest

/-- The `strings.Contains` on strings. -/
def strContains (s sub : String) : Bool :=
  strContainsList sub.toList s.toList

/-- The `strings.HasPrefix s pre`. -/
def strStartsWith (s pre : String) : Bool :=
  pre.toList.isPrefixOf s.toList

/-- The `strings.HasSuffix s suf`. -/
def strEndsWith (s suf : String) : Bool :=
  suf.toList.reverse.isPrefixOf s.toList.reverse

/-- The `strings.ToLower` (the URLs the code lowercases are ASCII; multi-byte
case folding does not occur in them). -/
def strToLower (s : String) : String :=
  String.mk (s.toList.map Char.toLower)

/-- The `min` helper at the bottom of `storage.go`:
`func min(a, b int) int { if a < b { return a }; return b }`. -/
def minGo (a b : Nat) : Nat :=
  if a < b then a else b

/-- The rune sequence Go's `for _, r := range contentStr` iterates over,
one representative per byte: a byte below `0x80` is its own rune, and any
byte of a multi-byte (or invalid) UTF-8 sequence only ever contributes to
runes that are at least `0x80` (invalid sequences decode to U+FFFD).  The
only predicate the code evaluates on these runes is built from the range
tests `r > 127` and `r < 32`, which cannot distinguish the actual decoded
code point of a high byte from the representative `0xFFFD`. -/
def runesOfBytes (bs : List Nat) : List Nat :=
  bs.map (fun b => if b < 128 then b else 0xFFFD)

/-- The `validateAssetContent(content []byte, assetURL string) bool` from
`storage.go`: empty content is rejected; a PNG/JPEG/GIF signature in the
first bytes is accepted; for URLs ending in `.css`/`.js` the first 500
bytes are scanned with the filter `r > 127 && r < 32 && r != '\n' &&
r != '\r' && r != '\t'`; everything else is accepted. -/
def validateAssetContent (content : List Nat) (assetURL : String) : Bool :=
  if content.length = 0 then false
  else
    let b0 := content.getD 0 0
    let b1 := content.getD 1 0
    let b2 := content.getD 2 0
    let b3 := content.getD 3 0
    if 4 ≤ content.length ∧
        ((b0 = 0x89 ∧ b1 = 0x50 ∧ b2 = 0x4E ∧ b3 = 0x47) ∨
         (b0 = 0xFF ∧ b1 = 0xD8) ∨
         (b0 = 71 ∧ b1 = 73 ∧ b2 = 70)) then
      true
    else if strEndsWith (strToLower assetURL) ".css" ||
        strEndsWith (strToLower assetURL) ".js" then
      if (runesOfBytes (content.take (minGo 500 content.length))).any
          (fun r => decide (127 < r ∧ r < 32 ∧ r ≠ 10 ∧ r ≠ 13 ∧ r ≠ 9)) then
        false
      else
        true
    else
      true

/-- The `html.NodeType` of `golang.org/x/net/html` (the code only ever tests
for `ElementNode`). -/
inductive NodeType where
  | errorNode
  | textNode
  | documentNode
  | elementNode
  | commentNode
  | doctypeNode
deriving DecidableEq, Repr

/-- The `html.Attribute` (the `Namespace` field is never touched by the code). -/
structure Attribute where
  key : String
  val : String
deriving DecidableEq, Repr

/-- The `html.Node` as the code traverses it: a node carries its type, its
`Data` (tag name), its attribute slice, and the `FirstChild` /
`NextSibling` pointers; `nil` pointers are the `nil` constructor.  The
traversal `extractFunc(n)` followed by the loop
`for c := n.FirstChild; c != nil; c = c.NextSibling` visits a node, then
its child chain, then (from the enclosing loop) its sibling chain, which
is exactly the recursion on this representation. -/
inductive HNode where
  | nil
  | node (ty : NodeType) (data : String) (attr : List Attribute)
      (firstChild : HNode) (nextSibling : HNode)
deriving DecidableEq, Repr

/-- The attribute name the extraction and rewrite passes both use for a
given tag: `href` for `link`, `src` for `script`/`img`/`iframe`, empty
otherwise (the shared `switch n.Data` statement). -/
def attrNameFor (data : String) : String :=
  if data = "link" then "href"
  else if data = "script" ∨ data = "img" ∨ data = "iframe" then "src"
  else ""

/-- Value of the first attribute with the given key, if any — both passes
scan `n.Attr` in order and `break` at the first match. -/
def findAttr (key : String) : List Attribute → Option String
  | [] => none
  | a :: rest => if a.key = key then some a.val else findAttr key rest

/-- Helper for `filepath.Ext`: walk the reversed character list of the
path, accumulating characters until a `.` (extension found, dot included)
or a `/` / end of string (no extension). -/
def extFromRev (acc : List Char) : List Char → String
  | [] => ""
  | c :: rest =>
    if c = '/' then ""
    else if c = '.' then String.mk ('.' :: acc)
    else extFromRev (c :: acc) rest

/-- The `filepath.Ext(path)`: the suffix beginning at the final dot in the
final slash-separated element of `path`, empty if there is none. -/
def filepathExt (path : String) : String :=
  extFromRev [] path.toList.reverse

/-- Events observable on the process-wide HTTP transport: a
`waitBetweenRequests` call, and a GET issued through `httpClient` with
the URL and the `Referer` header value (empty when none is set). -/
inductive Ev where
  | wait
  | get (url referer : String)
deriving DecidableEq, Repr

/-- Response to a page GET as `FetchRawHTML` consumes it: the status
code, and the result of reading the (possibly gzip-decoded) body as a
string — reading happens only after the 200 check and may itself fail
(gzip reader creation or `io.ReadAll`). -/
structure PageResp where
  status : Nat
  body : Except String String
deriving DecidableEq, Repr

/-- Response to an asset GET as `FetchAsset` consumes it, with the body
as bytes. -/
structure AssetResp where
  status : Nat
  body : Except String (List Nat)
deriving DecidableEq, Repr

/-- Oracles for everything outside the `storage` package: the network
(via the shared cookie-jar `httpClient`), `net/url`, `crypto/md5`,
`x/net/html` parsing and rendering, `os` file operations, `uuid.New`,
the wall clock, and the gorm database handle.  Each theorem quantifies
over an arbitrary `Env`, i.e. over every possible behavior of these
collaborators. -/
structure Env where
  /-- Whether `http.NewRequest("GET", url, nil)` succeeds for this URL. -/
  newRequestOK : String → Bool
  /-- Outcome of `httpClient.Do` on a redirect-following GET:
  a transport error, or `resp.Request.URL.String()` — the URL the
  client ended on after automatic redirect following. -/
  finalOf : String → Except String String
  /-- Whether `url.Parse` succeeds on this string. -/
  urlParseOK : String → Bool
  /-- The `parsedURL.Query().Get("url")` — empty string when absent. -/
  queryURL : String → String
  /-- The `url.QueryUnescape`: `none` on error. -/
  unescape : String → Option String
  /-- The first 8 hex characters of the MD5 of a string
  (`fmt.Sprintf("%x", md5.Sum(url))[:8]`). -/
  md5hex8 : String → String
  /-- The `url.Parse` for `generateAssetFileName`: `none` on error, else the
  `Path` component of the parsed URL. -/
  parsePath : String → Option String
  /-- The `url.Parse` of base and reference followed by
  `base.ResolveReference(ref).String()`; `none` when either parse
  fails. -/
  resolveRef : String → String → Option String
  /-- The tree `html.Parse` builds for a string.  `html.Parse` returns an
  error only when reading from its `io.Reader` fails, and the HTML5
  parsing algorithm itself accepts every input. -/
  parseHTML : String → HNode
  /-- The `html.Render` of a tree into a `strings.Builder` (whose writes
  cannot fail; on trees produced by `html.Parse` rendering succeeds). -/
  renderHTML : HNode → String
  /-- Outcome of the GET issued by `FetchRawHTML`. -/
  doPage : String → Except String PageResp
  /-- Outcome of the GET issued by `FetchAsset`. -/
  doAsset : String → Except String AssetResp
  /-- Whether `EnsureStorageDirs` (both `os.MkdirAll` calls) succeeds. -/
  mkdirOK : Bool
  /-- Whether `os.WriteFile` succeeds for a path. -/
  writeOK : List String → Bool
  /-- Whether `db.Create` succeeds. -/
  createOK : Bool
  /-- The `uuid.New().String()` for this capture. -/
  newUUID : String
  /-- The `time.Now()` at entry creation, as an abstract tick count. -/
  now : Nat

/-- The `resolveURL(baseURL, relativeURL)` from `storage.go`: empty
references give `""`; `data:` URIs give `""`; absolute `http(s)` URLs
pass through; everything else goes through `url.Parse` +
`ResolveReference`, with `""` on a parse failure. -/
def resolveURL (env : Env) (baseURL relativeURL : String) : String :=
  if relativeURL = "" then ""
  else if strStartsWith relativeURL "data:" || strStartsWith relativeURL "http://" ||
      strStartsWith relativeURL "https://" then
    if strStartsWith relativeURL "http" then relativeURL else ""
  else
    match env.resolveRef baseURL relativeURL with
    | none => ""
    | some s => s

/-- The `generateAssetFileName(assetURL, entryUUID)`: UUID + 8-hex md5 hash
of the URL + a best-effort extension (from the parsed path, else sniffed
by substring, else none). -/
def generateAssetFileName (env : Env) (assetURL entryUUID : String) : String :=
  let hash := env.md5hex8 assetURL
  match env.parsePath assetURL with
  | none => entryUUID ++ "_" ++ hash
  | some path =>
    let ext := filepathExt path
    let ext :=
      if ext = "" then
        if strContains assetURL ".css" then ".css"
        else if strContains assetURL ".js" then ".js"
        else if strContains assetURL ".png" then ".png"
        else if strContains assetURL ".jpg" || strContains assetURL ".jpeg" then ".jpg"
        else ""
      else ext
    entryUUID ++ "_" ++ hash ++ ext

/-- Body of `extractFunc` in `extractAssetsFromHTML`: at an element node
with an extractable tag, resolve the value of its first matching
attribute and collect it when nonempty; then recurse through children
and siblings (document order). -/
def extractNode (env : Env) (baseURL : String) : HNode → List String
  | .nil => []
  | .node ty data attrs child sib =>
    let here :=
      if ty = .elementNode then
        let an := attrNameFor data
        if an ≠ "" then
          match findAttr an attrs with
          | some v =>
            let r := resolveURL env baseURL v
            if r ≠ "" then [r] else []
          | none => []
        else []
      else []
    here ++ extractNode env baseURL child ++ extractNode env baseURL sib

/-- Attribute rewriting of `modifyFunc` in `modifyHTMLPaths`: at the
first attribute whose key matches, replace the value by the local asset
path when the value resolves to a nonempty URL, and stop (`break`);
later attributes are untouched either way. -/
def rewriteAttrs (env : Env) (entryUUID baseURL key : String) :
    List Attribute → List Attribute
  | [] => []
  | a :: rest =>
    if a.key = key then
      (if resolveURL env baseURL a.val ≠ "" then
        { a with val := "/data/assets/" ++
            generateAssetFileName env (resolveURL env baseURL a.val) entryUUID }
      else a) :: rest
    else a :: rewriteAttrs env entryUUID baseURL key rest

/-- Body of `modifyFunc` in `modifyHTMLPaths`: rewrite the node's
matching attribute in place, then recurse through children and
siblings. -/
def modifyNode (env : Env) (entryUUID baseURL : String) : HNode → HNode
  | .nil => .nil
  | .node ty data attrs child sib =>
    let attrs' :=
      if ty = .elementNode ∧ attrNameFor data ≠ "" then
        rewriteAttrs env entryUUID baseURL (attrNameFor data) attrs
      else attrs
    .node ty data attrs' (modifyNode env entryUUID baseURL child)
      (modifyNode env entryUUID baseURL sib)

/-- The raw values both passes look at, in document order: for every
element with an extractable tag that has a matching attribute, the value
of the first such attribute (whether or not it resolves). -/
def collectRefVals : HNode → List String
  | .nil => []
  | .node ty data attrs child sib =>
    let here :=
      if ty = .elementNode then
        let an := attrNameFor data
        if an ≠ "" then
          match findAttr an attrs with
          | some v => [v]
          | none => []
        else []
      else []
    here ++ collectRefVals child ++ collectRefVals sib

/-- The `strings.NewReader(s)`: reading the whole of an in-memory string
reader back cannot fail. -/
def stringsReaderRead (s : String) : Except String String :=
  .ok s

/-- The `html.Parse(r)`: fails exactly when reading from `r` fails,
otherwise builds the parse tree. -/
def htmlParse (env : Env) (r : Except String String) : Except String HNode :=
  match r with
  | .error e => .error ("failed to parse HTML: " ++ e)
  | .ok s => .ok (env.parseHTML s)

/-- The `extractAssetsFromHTML(htmlContent, baseURL)` from `storage.go`. -/
def extractAssetsFromHTML (env : Env) (htmlContent baseURL : String) :
    Except String (List String) :=
  match htmlParse env (stringsReaderRead htmlContent) with
  | .error e => .error e
  | .ok doc => .ok (extractNode env baseURL doc)

/-- The `modifyHTMLPaths(htmlContent, entryUUID, baseURL)` from
`storage.go`: parse, rewrite in place, render back to a string (a
`strings.Builder` write cannot fail, and rendering a tree produced by
`html.Parse` produces no render error). -/
def modifyHTMLPaths (env : Env) (htmlContent entryUUID baseURL : String) :
    Except String String :=
  match htmlParse env (stringsReaderRead htmlContent) with
  | .error e => .error e
  | .ok doc => .ok (env.renderHTML (modifyNode env entryUUID baseURL doc))

/-- The `requestDelay = 2 * time.Second`, in nanoseconds (a Go
`time.Duration` counts nanoseconds). -/
def requestDelay : Nat := 2000000000

/-- The `waitBetweenRequests()` under an idealized monotonic clock: given
the time `now` at the call and the recorded `lastRequestTime` (`none`
for the zero value), return the slept duration and the updated
`lastRequestTime` — Go sets it to `time.Now()` after sleeping, i.e. to
`now` plus the slept duration, and the guarded request is issued
immediately at that instant. -/
def waitBetweenRequests (now : Nat) (last : Option Nat) : Nat × Nat :=
  match last with
  | none => (0, now)
  | some t =>
    let elapsed := now - t
    if elapsed < requestDelay then
      (requestDelay - elapsed, now + (requestDelay - elapsed))
    else
      (0, now)

/-- The `resolveRedirectsWithReferer(originalURL, referer)`: build the GET
(which can fail only in `http.NewRequest`), issue it through the shared
client, read the final URL the client ended on, and report a block
error when it contains `sorry` or `captcha`.  Returns the transport
events in order together with the result. -/
def resolveRedirectsWithReferer (env : Env) (originalURL referer : String) :
    List Ev × Except String String :=
  if env.newRequestOK originalURL then
    ([Ev.get originalURL referer],
      match env.finalOf originalURL with
      | .error e =>
        .error ("failed to resolve redirects for '" ++ originalURL ++ "': " ++ e)
      | .ok finalURL =>
        if strContains finalURL "sorry" || strContains finalURL "captcha" then
          .error ("access blocked by CAPTCHA or sorry page: " ++ finalURL)
        else
          .ok finalURL)
  else
    ([], .error ("failed to create request for '" ++ originalURL ++ "'"))

/-- The `resolveRedirects(originalURL)`. -/
def resolveRedirects (env : Env) (originalURL : String) :
    List Ev × Except String String :=
  resolveRedirectsWithReferer env originalURL ""

/-- The `primeGoogleCookies()`: a plain GET to `https://www.google.com`
through the shared client (no `waitBetweenRequests` call), discarding
the body; afterwards the function sleeps one second. -/
def primeGoogleCookies (env : Env) : List Ev × Except String Unit :=
  if env.newRequestOK "https://www.google.com" then
    ([Ev.get "https://www.google.com" ""],
      match env.finalOf "https://www.google.com" with
      | .error e => .error ("failed to access Google homepage: " ++ e)
      | .ok _ => .ok ())
  else
    ([], .error "failed to create request for Google homepage")

/-- The `time.Sleep(1 * time.Second)` at the end of `primeGoogleCookies`
("Wait a bit to make it look more natural"), in nanoseconds. -/
def primeSleep : Nat := 1000000000

/-- Timing of the aggregator priming path of
`extractFinalURLFromGoogleNews` (lines 336–345) under the idealized
clock, for a URL containing the aggregator marker: `primeGoogleCookies`
issues its GET through the shared client immediately — it neither calls
`waitBetweenRequests` nor updates `lastRequestTime` — then sleeps one
second; next `waitBetweenRequests` runs against the (unchanged) recorded
timestamp, and the redirect-following referer GET is issued at the
instant of the updated timestamp.  Given the time `now` at which the
path starts and the recorded `lastRequestTime`, returns the issue time
of the priming GET and the issue time of the referer GET. -/
def googleNewsPathTimes (now : Nat) (last : Option Nat) : Nat × Nat :=
  let primeAt := now
  let afterSleep := primeAt + primeSleep
  (primeAt, (waitBetweenRequests afterSleep last).2)

/-- Lines 350–366 of `extractFinalURLFromGoogleNews`: when following
redirects did not produce a usable URL, parse the original link, try its
`url` query parameter, and otherwise fall through to a plain
`resolveRedirects` on the original link. -/
def googleNewsFallback (env : Env) (googleNewsURL : String) (pre : List Ev) :
    List Ev × Except String String :=
  if env.urlParseOK googleNewsURL then
    let q := env.queryURL googleNewsURL
    if q ≠ "" then
      match env.unescape q with
      | some decoded => (pre, .ok decoded)
      | none =>
        let r := resolveRedirects env googleNewsURL
        (pre ++ r.1, r.2)
    else
      let r := resolveRedirects env googleNewsURL
      (pre ++ r.1, r.2)
  else
    (pre, .error "failed to parse Google News URL")

/-- The `extractFinalURLFromGoogleNews(googleNewsURL)`: for URLs containing
`news.google.com`, prime Google cookies (a failure is only logged), wait
one rate-limit interval, follow redirects with the
`https://www.google.com` referer, and accept the result only when it
left Google News and is not a sorry page; otherwise fall back to the
`url` query parameter and finally to a plain `resolveRedirects`.  URLs
not containing `news.google.com` go straight to `resolveRedirects`. -/
def extractFinalURLFromGoogleNews (env : Env) (googleNewsURL : String) :
    List Ev × Except String String :=
  if strContains googleNewsURL "news.google.com" then
    let p := primeGoogleCookies env
    let r := resolveRedirectsWithReferer env googleNewsURL "https://www.google.com"
    let pre := p.1 ++ [Ev.wait] ++ r.1
    match r.2 with
    | .ok finalURL =>
      if ¬ (strContains finalURL "news.google.com" = true) ∧
          ¬ (strContains finalURL "sorry" = true) then
        (pre, .ok finalURL)
      else
        googleNewsFallback env googleNewsURL pre
    | .error _ => googleNewsFallback env googleNewsURL pre
  else
    resolveRedirects env googleNewsURL

/-- The `FetchRawHTML(url)`: wait one rate-limit interval, GET the page,
fail on a transport error, fail with the status code on a non-200
response, then read the (possibly gzip-decoded) body. -/
def FetchRawHTML (env : Env) (url : String) : List Ev × Except String String :=
  if env.newRequestOK url then
    ([Ev.wait, Ev.get url ""],
      match env.doPage url with
      | .error e => .error ("failed to get URL '" ++ url ++ "': " ++ e)
      | .ok resp =>
        if resp.status ≠ 200 then
          .error ("failed to get URL '" ++ url ++ "': status code " ++ toString resp.status)
        else
          match resp.body with
          | .error e => .error ("failed to read response body from '" ++ url ++ "': " ++ e)
          | .ok body => .ok body)
  else
    ([Ev.wait], .error ("failed to create request for '" ++ url ++ "'"))

/-- The `FetchAsset(assetURL)`: same shape as `FetchRawHTML` with a byte
body. -/
def FetchAsset (env : Env) (assetURL : String) : List Ev × Except String (List Nat) :=
  if env.newRequestOK assetURL then
    ([Ev.wait, Ev.get assetURL ""],
      match env.doAsset assetURL with
      | .error e => .error ("failed to get asset '" ++ assetURL ++ "': " ++ e)
      | .ok resp =>
        if resp.status ≠ 200 then
          .error ("failed to get asset '" ++ assetURL ++ "': status code " ++ toString resp.status)
        else
          resp.body)
  else
    ([Ev.wait], .error ("failed to create request for asset '" ++ assetURL ++ "'"))

/-- The `models.ArchiveEntry` as `ArchiveURL` constructs it (the gorm-managed
bookkeeping columns are owned by the persistence layer).  File paths are
represented as component lists, see `filepathJoin`. -/
structure ArchiveEntry where
  url : String
  title : String
  storagePath : List String
  archivedAt : Nat
deriving DecidableEq, Repr

/-- Observable state outside the process: the set of files on disk
(paths as component lists) and the database rows, newest first. -/
structure World where
  files : List (List String)
  db : List ArchiveEntry
deriving DecidableEq, Repr

/-- The `rawHTMLDir = "data/raw"` as path components. -/
def rawHTMLDir : List String := ["data", "raw"]

/-- The `assetsDir = "data/assets"` as path components. -/
def assetsDir : List String := ["data", "assets"]

/-- The `filepath.Join(dir, name)`: paths are modelled as their
slash-separated component lists (the directory constants and the
generated file names contain no separators or dot segments, so `Join` is
plain concatenation). -/
def filepathJoin (dir : List String) (name : String) : List String :=
  dir ++ [name]

/-- The asset-download loop of `ArchiveURL` (lines 623–649): for each
extracted URL, fetch it (failures are logged and skipped), validate it
(invalid content is skipped), and write it to
`assetsDir/generateAssetFileName(assetURL, entryUUID)` (write failures
are skipped).  Returns the transport events and the updated world. -/
def saveAssets (env : Env) (entryUUID : String) (w : World) :
    List String → List Ev × World
  | [] => ([], w)
  | assetURL :: rest =>
    let fa := FetchAsset env assetURL
    match fa.2 with
    | .error _ =>
      let t := saveAssets env entryUUID w rest
      (fa.1 ++ t.1, t.2)
    | .ok assetContent =>
      if validateAssetContent assetContent assetURL then
        let assetFilePath := filepathJoin assetsDir
          (generateAssetFileName env assetURL entryUUID)
        if env.writeOK assetFilePath then
          let t := saveAssets env entryUUID
            { w with files := assetFilePath :: w.files } rest
          (fa.1 ++ t.1, t.2)
        else
          let t := saveAssets env entryUUID w rest
          (fa.1 ++ t.1, t.2)
      else
        let t := saveAssets env entryUUID w rest
        (fa.1 ++ t.1, t.2)

/-- The redirect-resolution block of `ArchiveURL` (lines 592–605): only
URLs containing a shortener/aggregator marker are resolved at all, and a
resolution error is logged and recovered by keeping the original URL. -/
def resolveStep (env : Env) (urlToArchive : String) : List Ev × String :=
  if strContains urlToArchive "news.google.com" ||
      strContains urlToArchive "t.co" ||
      strContains urlToArchive "bit.ly" ||
      strContains urlToArchive "tinyurl.com" then
    let r := extractFinalURLFromGoogleNews env urlToArchive
    match r.2 with
    | .error _ => (r.1, urlToArchive)
    | .ok resolvedURL => (r.1, resolvedURL)
  else
    ([], urlToArchive)

/-- The `ArchiveURL(db, urlToArchive)` from `storage.go`: ensure the storage
directories, best-effort redirect resolution, fetch the page (fatal),
extract assets, download/validate/save each asset (best effort), rewrite
the HTML, write it to `rawHTMLDir/<uuid>.html` (fatal), and create the
database row — deleting the just-written HTML file when the create
fails.  Returns the transport events, the final world, and the result. -/
def ArchiveURL (env : Env) (w : World) (urlToArchive : String) :
    List Ev × World × Except String ArchiveEntry :=
  if env.mkdirOK then
    let rs := resolveStep env urlToArchive
    let finalURL := rs.2
    let f := FetchRawHTML env finalURL
    match f.2 with
    | .error e =>
      (rs.1 ++ f.1, w,
        .error ("failed to fetch HTML content for '" ++ finalURL ++ "': " ++ e))
    | .ok htmlContent =>
      let entryUUID := env.newUUID
      match extractAssetsFromHTML env htmlContent finalURL with
      | .error e =>
        (rs.1 ++ f.1, w,
          .error ("failed to extract assets from HTML for '" ++ urlToArchive ++ "': " ++ e))
      | .ok assets =>
        let sa := saveAssets env entryUUID w assets
        let w1 := sa.2
        let tr := rs.1 ++ f.1 ++ sa.1
        match modifyHTMLPaths env htmlContent entryUUID finalURL with
        | .error e =>
          (tr, w1, .error ("failed to modify HTML paths for '" ++ finalURL ++ "': " ++ e))
        | .ok modifiedHTML =>
          let htmlFilePath := filepathJoin rawHTMLDir (entryUUID ++ ".html")
          if env.writeOK htmlFilePath then
            let w2 : World := { w1 with files := htmlFilePath :: w1.files }
            let archiveEntry : ArchiveEntry :=
              { url := finalURL, title := "", storagePath := htmlFilePath,
                archivedAt := env.now }
            if env.createOK then
              (tr, { w2 with db := archiveEntry :: w2.db }, .ok archiveEntry)
            else
              (tr, { w2 with files := w2.files.filter (· ≠ htmlFilePath) },
                .error ("failed to create archive entry in database for '" ++ finalURL ++ "'"))
          else
            (tr, w1,
              .error ("failed to write HTML to '" ++ String.intercalate "/" htmlFilePath ++ "'"))
  else
    ([], w, .error "failed to ensure storage directories")

/-- Drop everything up to and including the `://` scheme separator. -/
def dropSchemeSep : List Char → List Char
  | [] => []
  | ':' :: '/' :: '/' :: rest => rest
  | _ :: rest => dropSchemeSep rest

/-- Take the authority characters up to the first `/`, `?` or `#`. -/
def takeHost : List Char → List Char
  | [] => []
  | c :: rest => if c = '/' ∨ c = '?' ∨ c = '#' then [] else c :: takeHost rest

/-- Modelled from the spec: the *host* of a URL — the authority component
between the scheme's `://` and the next `/`, `?` or `#` (the code itself
never extracts a host; it tests `strings.Contains` on the whole URL, and
this definition only serves to state the spec's host-based claim). -/
def hostOf (u : String) : String :=
  String.mk (takeHost (dropSchemeSep u.toList))

/-- A concrete environment for witnesses and counterexamples: a server
that returns one page containing one PNG image reference, no redirects,
and a database whose `Create` succeeds. -/
def baseEnv : Env where
  newRequestOK := fun _ => true
  finalOf := fun s => .ok s
  urlParseOK := fun _ => true
  queryURL := fun _ => ""
  unescape := fun _ => none
  md5hex8 := fun _ => "aaaaaaaa"
  parsePath := fun _ => some "/a.png"
  resolveRef := fun _ _ => none
  parseHTML := fun _ =>
    .node .elementNode "img" [⟨"src", "http://e.com/a.png"⟩] .nil .nil
  renderHTML := fun _ => "<img src=\x22/data/assets/u1_aaaaaaaa.png\x22/>"
  doPage := fun _ => .ok ⟨200, .ok "<img src=\x22http://e.com/a.png\x22/>"⟩
  doAsset := fun _ => .ok ⟨200, .ok [0x89, 0x50, 0x4E, 0x47, 0]⟩
  mkdirOK := true
  writeOK := fun _ => true
  createOK := true
  newUUID := "u1"
  now := 0

/-- The `baseEnv` with a failing database `Create` (for C1). -/
def envC1 : Env := { baseEnv with createOK := false }

/-- The `baseEnv` with a failing database `Create` (for C3). -/
def envC3fail : Env := { baseEnv with createOK := false }

/-- The `baseEnv` with a succeeding capture (for C3's commit conjunct). -/
def envC3ok : Env := baseEnv

/-- A server answering 404 to every page GET (for C4). -/
def envC4 : Env := { baseEnv with doPage := fun _ => .ok ⟨404, .ok ""⟩ }

/-- A Google News link whose `url` query parameter decodes to the real
article (for C5's counterexample). -/
def newsURL5 : String := "https://news.google.com/articles?url=x"

/-- A server whose every GET lands on a Google sorry page, while the
news link carries a decodable `url` parameter (for C5). -/
def envC5 : Env :=
  { baseEnv with
    finalOf := fun _ => .ok "https://www.google.com/sorry/index"
    queryURL := fun s => if s = newsURL5 then "x" else ""
    unescape := fun _ => some "https://real.example.org" }

/-- A server whose every GET lands on a sorry page and a link with no
recoverable `url` parameter (for C5's amended claim witness). -/
def envC5w : Env := { baseEnv with finalOf := fun _ => .ok "https://x.com/sorry" }

/-- The `baseEnv` already answers every URL with itself (no redirects); a
final URL that merely *contains* the substring `sorry` (for C8). -/
def envC8 : Env := baseEnv

/-- A URL that is not an aggregator link by host but contains the
aggregator substring in its query (for C9's counterexample). -/
def u9 : String := "https://example.com/?x=news.google.com"

/-- A server with no redirects and nothing blocked (for C9). -/
def envC9 : Env := { baseEnv with finalOf := fun _ => .ok "https://final.example.org" }

/-! ## Theorems -/

theorem validateAssetContent_true_of_ne_nil (c : List Nat) (u : String) (h : c ≠ []) :
    validateAssetContent c u = true := by
  unfold validateAssetContent
  rw [if_neg (by simpa using h)]
  dsimp only
  split
  · rfl
  · split
    · have hf : ((runesOfBytes (c.take (minGo 500 c.length))).any
          (fun r => decide (127 < r ∧ r < 32 ∧ r ≠ 10 ∧ r ≠ 13 ∧ r ≠ 9))) = false := by
        rw [List.any_eq_false]
        intro r _
        simp only [decide_eq_true_eq, not_and]
        omega
      rw [hf]
      rfl
    · rfl

/-- C2: the claim says a `.css`/`.js` asset whose first 500 bytes contain a
control character outside whitespace is rejected by
`validateAssetContent`.  The code's filter condition
`r > 127 && r < 32 && ...` is unsatisfiable, so the scan never rejects
anything: here five control bytes (none of them printable, none of them
an image signature) are accepted, contradicting both the claim and the
code's own `return false // Contains suspicious binary data` comment. -/
theorem validateAssetContent_accepts_control_garbage :
    validateAssetContent [1, 2, 3, 4, 5] "https://example.com/style.css" = true := by
  decide

/-- C6 counterexample: on the aggregator priming path with no previously
recorded request (`lastRequestTime` still the zero value), the priming
GET goes out immediately and the referer GET follows it after only the
fixed one-second sleep — the `waitBetweenRequests` call between them
measures from the stale recorded timestamp, which the priming request
never updates, and so sleeps nothing.  One second is below the
two-second minimum spacing, so two consecutive requests through the
shared transport are issued less than `requestDelay` apart. -/
theorem priming_gap_below_min_spacing :
    (googleNewsPathTimes 0 none).2 - (googleNewsPathTimes 0 none).1 = primeSleep ∧
    primeSleep < requestDelay := by
  exact ⟨rfl, by decide⟩

/-- C6 (amended): between two consecutive requests that are *guarded* by
`waitBetweenRequests` (page fetch, asset fetch, the aggregator path's
referer GET), the limiter enforces the minimum spacing — it sleeps for
the remainder whenever the elapsed time since the recorded timestamp is
below the delay and updates the timestamp to the issue instant, so the
guarded issue instant is at least `requestDelay` after the recorded
timestamp.  The aggregator priming GET, however, goes through the shared
transport without consulting the limiter or updating the timestamp:
whenever the recorded timestamp is stale, the referer GET follows the
priming GET after only the one-second sleep. -/
theorem guarded_spacing_priming_unguarded (t now : Nat) (h : t ≤ now) :
    (requestDelay ≤ (waitBetweenRequests now (some t)).2 - t ∧
      (waitBetweenRequests now (some t)).2 = now + (waitBetweenRequests now (some t)).1) ∧
    (requestDelay ≤ now - t →
      (googleNewsPathTimes now (some t)).2 - (googleNewsPathTimes now (some t)).1 =
        primeSleep) := by
  constructor
  · unfold waitBetweenRequests
    dsimp only
    split <;> constructor <;> omega
  · intro hst
    unfold requestDelay at hst
    unfold googleNewsPathTimes waitBetweenRequests primeSleep requestDelay
    dsimp only
    split <;> omega

theorem guarded_spacing_priming_unguarded_witness :
    ((0 : Nat) ≤ 3000000000 ∧ requestDelay ≤ 3000000000 - 0) ∧
    ((requestDelay ≤ (waitBetweenRequests 3000000000 (some 0)).2 - 0 ∧
        (waitBetweenRequests 3000000000 (some 0)).2 =
          3000000000 + (waitBetweenRequests 3000000000 (some 0)).1) ∧
      (googleNewsPathTimes 3000000000 (some 0)).2 -
          (googleNewsPathTimes 3000000000 (some 0)).1 = primeSleep) :=
  ⟨⟨by decide, by decide⟩,
    ⟨(guarded_spacing_priming_unguarded 0 3000000000 (by decide)).1,
      (guarded_spacing_priming_unguarded 0 3000000000 (by decide)).2 (by decide)⟩⟩

/-- C10: `extractAssetsFromHTML` and `modifyHTMLPaths` never return an
error for any input string — `html.Parse` can only fail when its reader
fails and a `strings.Reader` cannot — so the two fatal branches of
`ArchiveURL` guarding them are unreachable. -/
theorem extract_modify_never_fail (env : Env) (html base uuid : String) :
    (extractAssetsFromHTML env html base).isOk = true ∧
    (modifyHTMLPaths env html uuid base).isOk = true :=
  ⟨rfl, rfl⟩

/-- C8 (amended): resolving a URL for which the server issues no redirect
returns that URL unchanged with no error, *provided* the URL does not
contain the blocked-page markers `sorry` or `captcha`. -/
theorem resolveRedirects_final_fixed (env : Env) (u : String)
    (h1 : env.newRequestOK u = true) (h2 : env.finalOf u = .ok u)
    (h3 : strContains u "sorry" = false) (h4 : strContains u "captcha" = false) :
    (resolveRedirects env u).2 = .ok u := by
  unfold resolveRedirects resolveRedirectsWithReferer
  simp [h1, h2, h3, h4]

/-- C8 counterexample: `envC8` issues no redirect for any URL, yet
resolving an already-final URL that merely contains the substring
`sorry` returns an error instead of the URL itself. -/
theorem resolveRedirects_blocks_final_sorry_url :
    envC8.finalOf "https://example.com/sorry-page" = .ok "https://example.com/sorry-page" ∧
    (resolveRedirects envC8 "https://example.com/sorry-page").2 =
      .error "access blocked by CAPTCHA or sorry page: https://example.com/sorry-page" := by
  constructor
  · rfl
  · decide

theorem resolveRedirects_final_fixed_witness :
    (envC8.newRequestOK "https://example.com/a" = true ∧
      envC8.finalOf "https://example.com/a" = .ok "https://example.com/a" ∧
      strContains "https://example.com/a" "sorry" = false ∧
      strContains "https://example.com/a" "captcha" = false) ∧
    (resolveRedirects envC8 "https://example.com/a").2 = .ok "https://example.com/a" :=
  ⟨⟨rfl, rfl, by decide, by decide⟩,
    resolveRedirects_final_fixed envC8 "https://example.com/a" rfl rfl
      (by decide) (by decide)⟩

theorem saveAssets_db (env : Env) (uuid : String) :
    ∀ (l : List String) (w : World), (saveAssets env uuid w l).2.db = w.db := by
  intro l
  induction l with
  | nil => intro w; rfl
  | cons a rest ih =>
    intro w
    unfold saveAssets
    dsimp only
    split
    · exact ih w
    · split
      · split
        · exact ih _
        · exact ih w
      · exact ih w

theorem saveAssets_files_mem (env : Env) (uuid : String) :
    ∀ (l : List String) (w : World) (p : List String),
      p ∈ (saveAssets env uuid w l).2.files →
      p ∈ w.files ∨ ∃ f, p = assetsDir ++ [f] := by
  intro l
  induction l with
  | nil => intro w p hp; exact Or.inl hp
  | cons a rest ih =>
    intro w p hp
    unfold saveAssets at hp
    dsimp only at hp
    split at hp
    · exact ih w p hp
    · split at hp
      · split at hp
        · rcases ih _ p hp with h | h
          · rcases List.mem_cons.mp h with h' | h'
            · exact Or.inr ⟨generateAssetFileName env a uuid, h'⟩
            · exact Or.inl h'
          · exact Or.inr h
        · exact ih w p hp
      · exact ih w p hp

theorem htmlPath_ne_assetPath (u f : String) :
    filepathJoin rawHTMLDir u ≠ assetsDir ++ [f] := by
  intro h
  simp only [filepathJoin, rawHTMLDir, assetsDir, List.cons_append, List.nil_append,
    List.cons.injEq] at h
  exact absurd h.2.1 (by decide)

/-- C1 (amended): when `ArchiveURL` returns an error, no database entry
is added and the rewritten HTML file of this capture does not remain on
disk; asset files already written during the failed capture, however,
may remain (see the counterexample). -/
theorem archiveURL_error_no_entry_html_deleted (env : Env) (w : World) (url : String)
    (herr : (ArchiveURL env w url).2.2.isOk = false)
    (hfr : filepathJoin rawHTMLDir (env.newUUID ++ ".html") ∉ w.files) :
    (ArchiveURL env w url).2.1.db = w.db ∧
    filepathJoin rawHTMLDir (env.newUUID ++ ".html") ∉ (ArchiveURL env w url).2.1.files := by
  revert herr
  unfold ArchiveURL
  split
  · dsimp only
    split
    · intro _; exact ⟨rfl, hfr⟩
    · split
      · intro _; exact ⟨rfl, hfr⟩
      · split
        · intro _
          refine ⟨saveAssets_db env env.newUUID _ w, fun hm => ?_⟩
          rcases saveAssets_files_mem env env.newUUID _ w _ hm with h | ⟨f, hf⟩
          · exact hfr h
          · exact htmlPath_ne_assetPath _ f hf
        · split
          · split
            · intro herr
              simp [Except.isOk, Except.toBool] at herr
            · intro _
              refine ⟨saveAssets_db env env.newUUID _ w, fun hm => ?_⟩
              rcases List.mem_filter.mp hm with ⟨_, hne⟩
              simp at hne
          · intro _
            refine ⟨saveAssets_db env env.newUUID _ w, fun hm => ?_⟩
            rcases saveAssets_files_mem env env.newUUID _ w _ hm with h | ⟨f, hf⟩
            · exact hfr h
            · exact htmlPath_ne_assetPath _ f hf
  · intro _; exact ⟨rfl, hfr⟩

/-- C1 counterexample: with `envC1` the database `Create` of the entry
fails, `ArchiveURL` returns an error — and the downloaded asset file
written during the capture is still on disk afterward, so the claim
that a failing capture leaves *no* residual files is false. -/
theorem archiveURL_db_failure_leaves_asset_file :
    (ArchiveURL envC1 ⟨[], []⟩ "http://e.com/p").2.2.isOk = false ∧
    (ArchiveURL envC1 ⟨[], []⟩ "http://e.com/p").2.1.files =
      [["data", "assets", "u1_aaaaaaaa.png"]] := by
  constructor <;> decide

theorem archiveURL_error_no_entry_html_deleted_witness :
    ((ArchiveURL envC1 ⟨[], []⟩ "http://e.com/p").2.2.isOk = false ∧
      filepathJoin rawHTMLDir (envC1.newUUID ++ ".html") ∉ (⟨[], []⟩ : World).files) ∧
    ((ArchiveURL envC1 ⟨[], []⟩ "http://e.com/p").2.1.db = (⟨[], []⟩ : World).db ∧
      filepathJoin rawHTMLDir (envC1.newUUID ++ ".html") ∉
        (ArchiveURL envC1 ⟨[], []⟩ "http://e.com/p").2.1.files) :=
  ⟨⟨by decide, by decide⟩,
    archiveURL_error_no_entry_html_deleted envC1 ⟨[], []⟩ "http://e.com/p"
      (by decide) (by decide)⟩

/-- C3: if the database create fails, `ArchiveURL` returns an error, adds
no entry, and the HTML file of this capture is not on disk afterward
(it is deleted when the create was reached); and every committed record's
`storagePath` is the capture's HTML file, which exists in the final
world — in particular at the moment of the commit, after which nothing
is removed. -/
theorem archiveURL_commit_discipline (env : Env) (w : World) (url : String)
    (hfr : filepathJoin rawHTMLDir (env.newUUID ++ ".html") ∉ w.files) :
    (env.createOK = false →
      (ArchiveURL env w url).2.2.isOk = false ∧
      (ArchiveURL env w url).2.1.db = w.db ∧
      filepathJoin rawHTMLDir (env.newUUID ++ ".html") ∉ (ArchiveURL env w url).2.1.files) ∧
    (∀ e, (ArchiveURL env w url).2.2 = .ok e →
      e.storagePath = filepathJoin rawHTMLDir (env.newUUID ++ ".html") ∧
      e.storagePath ∈ (ArchiveURL env w url).2.1.files) := by
  unfold ArchiveURL
  split
  · dsimp only
    split
    · exact ⟨fun _ => ⟨rfl, rfl, hfr⟩, fun e he => by cases he⟩
    · split
      · exact ⟨fun _ => ⟨rfl, rfl, hfr⟩, fun e he => by cases he⟩
      · split
        · refine ⟨fun _ => ⟨rfl, saveAssets_db env env.newUUID _ w, fun hm => ?_⟩,
            fun e he => by cases he⟩
          rcases saveAssets_files_mem env env.newUUID _ w _ hm with h | ⟨f, hf⟩
          · exact hfr h
          · exact htmlPath_ne_assetPath _ f hf
        · split
          · split
            · refine ⟨fun hc => by simp_all, fun e he => ?_⟩
              cases he
              exact ⟨rfl, List.mem_cons_self _ _⟩
            · refine ⟨fun _ => ⟨rfl, saveAssets_db env env.newUUID _ w, fun hm => ?_⟩,
                fun e he => by cases he⟩
              rcases List.mem_filter.mp hm with ⟨_, hne⟩
              simp at hne
          · refine ⟨fun _ => ⟨rfl, saveAssets_db env env.newUUID _ w, fun hm => ?_⟩,
              fun e he => by cases he⟩
            rcases saveAssets_files_mem env env.newUUID _ w _ hm with h | ⟨f, hf⟩
            · exact hfr h
            · exact htmlPath_ne_assetPath _ f hf
  · exact ⟨fun _ => ⟨rfl, rfl, hfr⟩, fun e he => by cases he⟩

theorem archiveURL_commit_discipline_witness :
    (filepathJoin rawHTMLDir (envC3fail.newUUID ++ ".html") ∉ (⟨[], []⟩ : World).files ∧
      envC3fail.createOK = false ∧
      ((ArchiveURL envC3fail ⟨[], []⟩ "http://e.com/p").2.2.isOk = false ∧
        (ArchiveURL envC3fail ⟨[], []⟩ "http://e.com/p").2.1.db = (⟨[], []⟩ : World).db ∧
        filepathJoin rawHTMLDir (envC3fail.newUUID ++ ".html") ∉
          (ArchiveURL envC3fail ⟨[], []⟩ "http://e.com/p").2.1.files)) ∧
    ((ArchiveURL envC3ok ⟨[], []⟩ "http://e.com/p").2.2 =
        .ok { url := "http://e.com/p", title := "",
              storagePath := ["data", "raw", "u1.html"], archivedAt := 0 } ∧
      (["data", "raw", "u1.html"] =
          filepathJoin rawHTMLDir (envC3ok.newUUID ++ ".html") ∧
        ["data", "raw", "u1.html"] ∈
          (ArchiveURL envC3ok ⟨[], []⟩ "http://e.com/p").2.1.files)) :=
  ⟨⟨by decide, rfl,
      (archiveURL_commit_discipline envC3fail ⟨[], []⟩ "http://e.com/p" (by decide)).1 rfl⟩,
    ⟨by decide,
      (archiveURL_commit_discipline envC3ok ⟨[], []⟩ "http://e.com/p" (by decide)).2
        { url := "http://e.com/p", title := "",
          storagePath := ["data", "raw", "u1.html"], archivedAt := 0 } (by decide)⟩⟩

theorem isPrefixOf_self (l : List Char) : l.isPrefixOf l = true := by
  induction l with
  | nil => rfl
  | cons c t ih => simp [List.isPrefixOf, ih]

theorem strContainsList_append_self (sub pre : List Char) :
    strContainsList sub (pre ++ sub) = true := by
  induction pre with
  | nil =>
    cases sub with
    | nil => rfl
    | cons c t => simp [strContainsList, isPrefixOf_self]
  | cons c p ih =>
    show strContainsList sub (c :: (p ++ sub)) = true
    unfold strContainsList
    rw [ih]
    simp

theorem strContains_append (a b : String) : strContains (a ++ b) b = true := by
  unfold strContains
  have h : (a ++ b).toList = a.toList ++ b.toList := by
    simp [String.toList, String.data_append]
  rw [h]
  exact strContainsList_append_self _ _

/-- C4: when the page GET for the (resolved) capture URL answers with a
non-200 status, `ArchiveURL` leaves the world — files and database —
untouched and returns an error whose message carries that status code. -/
theorem archiveURL_non200_aborts (env : Env) (w : World) (url : String)
    (status : Nat) (body : Except String String)
    (hmk : env.mkdirOK = true)
    (hreq : env.newRequestOK (resolveStep env url).2 = true)
    (hpage : env.doPage (resolveStep env url).2 = .ok ⟨status, body⟩)
    (hst : status ≠ 200) :
    (ArchiveURL env w url).2.1 = w ∧
    (ArchiveURL env w url).2.2 =
      .error ("failed to fetch HTML content for '" ++ (resolveStep env url).2 ++
        "': " ++ ("failed to get URL '" ++ (resolveStep env url).2 ++
          "': status code " ++ toString status)) ∧
    strContains ("failed to fetch HTML content for '" ++ (resolveStep env url).2 ++
        "': " ++ ("failed to get URL '" ++ (resolveStep env url).2 ++
          "': status code " ++ toString status)) (toString status) = true := by
  have hf : (FetchRawHTML env (resolveStep env url).2).2 =
      .error ("failed to get URL '" ++ (resolveStep env url).2 ++
        "': status code " ++ toString status) := by
    unfold FetchRawHTML
    rw [if_pos hreq]
    rw [hpage]
    dsimp only
    rw [if_pos hst]
  refine ⟨?_, ?_, ?_⟩
  · unfold ArchiveURL
    rw [if_pos hmk]
    dsimp only
    rw [hf]
  · unfold ArchiveURL
    rw [if_pos hmk]
    dsimp only
    rw [hf]
  · have h := strContains_append
      ("failed to fetch HTML content for '" ++ (resolveStep env url).2 ++
        "': " ++ ("failed to get URL '" ++ (resolveStep env url).2 ++ "': status code "))
      (toString status)
    simpa [String.append_assoc] using h

theorem archiveURL_non200_aborts_witness :
    (envC4.mkdirOK = true ∧
      envC4.newRequestOK (resolveStep envC4 "http://e.com/p").2 = true ∧
      envC4.doPage (resolveStep envC4 "http://e.com/p").2 = .ok ⟨404, .ok ""⟩ ∧
      (404 : Nat) ≠ 200) ∧
    ((ArchiveURL envC4 ⟨[], []⟩ "http://e.com/p").2.1 = (⟨[], []⟩ : World) ∧
      (ArchiveURL envC4 ⟨[], []⟩ "http://e.com/p").2.2 =
        .error ("failed to fetch HTML content for '" ++
          (resolveStep envC4 "http://e.com/p").2 ++ "': " ++
          ("failed to get URL '" ++ (resolveStep envC4 "http://e.com/p").2 ++
            "': status code " ++ toString (404 : Nat))) ∧
      strContains ("failed to fetch HTML content for '" ++
          (resolveStep envC4 "http://e.com/p").2 ++ "': " ++
          ("failed to get URL '" ++ (resolveStep envC4 "http://e.com/p").2 ++
            "': status code " ++ toString (404 : Nat))) (toString (404 : Nat)) = true) :=
  ⟨⟨rfl, by decide, by decide, by decide⟩,
    archiveURL_non200_aborts envC4 ⟨[], []⟩ "http://e.com/p" 404 (.ok "")
      rfl (by decide) (by decide) (by decide)⟩

/-- C5 (amended): a redirect-following GET that lands on a URL containing
`sorry` or `captcha` makes `resolveRedirectsWithReferer` return the
blocked error; and whenever the whole resolution step
(`extractFinalURLFromGoogleNews`) fails, `ArchiveURL`'s resolution block
falls back to the original caller-supplied URL.  (When an aggregator
link's `url` query parameter is decodable, the blocked redirect is
instead recovered and the capture proceeds with the extracted URL — see
the counterexample.) -/
theorem blocked_resolution_nonfatal (env : Env) (url referer f : String)
    (h1 : env.newRequestOK url = true)
    (h2 : env.finalOf url = .ok f)
    (h3 : strContains f "sorry" = true ∨ strContains f "captcha" = true) :
    (resolveRedirectsWithReferer env url referer).2 =
      .error ("access blocked by CAPTCHA or sorry page: " ++ f) ∧
    (∀ e, (extractFinalURLFromGoogleNews env url).2 = .error e →
      (resolveStep env url).2 = url) := by
  constructor
  · unfold resolveRedirectsWithReferer
    rw [if_pos h1, h2]
    dsimp only
    rcases h3 with h | h <;> simp [h]
  · intro e he
    unfold resolveStep
    split
    · dsimp only
      split
      · rfl
      · rename_i heq
        rw [he] at heq
        exact Except.noConfusion heq
    · rfl

/-- C5 counterexample: for the Google News link `newsURL5`, the
redirect-following GET lands on a sorry page and resolution reports the
blocked error — yet `ArchiveURL`'s resolution step proceeds with the URL
decoded from the link's `url` query parameter, *not* with the original
caller-supplied URL. -/
theorem blocked_resolution_uses_param_not_original :
    (resolveRedirectsWithReferer envC5 newsURL5 "https://www.google.com").2 =
      .error "access blocked by CAPTCHA or sorry page: https://www.google.com/sorry/index" ∧
    (resolveStep envC5 newsURL5).2 = "https://real.example.org" ∧
    newsURL5 ≠ "https://real.example.org" := by
  refine ⟨by decide, by decide, by decide⟩

theorem blocked_resolution_nonfatal_witness :
    (envC5w.newRequestOK "https://bit.ly/x" = true ∧
      envC5w.finalOf "https://bit.ly/x" = .ok "https://x.com/sorry" ∧
      strContains "https://x.com/sorry" "sorry" = true) ∧
    ((resolveRedirectsWithReferer envC5w "https://bit.ly/x" "").2 =
        .error ("access blocked by CAPTCHA or sorry page: " ++ "https://x.com/sorry") ∧
      (resolveStep envC5w "https://bit.ly/x").2 = "https://bit.ly/x") :=
  ⟨⟨rfl, rfl, by decide⟩,
    ⟨(blocked_resolution_nonfatal envC5w "https://bit.ly/x" "" "https://x.com/sorry"
        rfl rfl (Or.inl (by decide))).1,
      (blocked_resolution_nonfatal envC5w "https://bit.ly/x" "" "https://x.com/sorry"
        rfl rfl (Or.inl (by decide))).2
        "access blocked by CAPTCHA or sorry page: https://x.com/sorry" (by decide)⟩⟩

theorem googleNewsFallback_trace (env : Env) (u : String) (pre : List Ev) :
    ∃ rest, (googleNewsFallback env u pre).1 = pre ++ rest := by
  unfold googleNewsFallback
  split
  · dsimp only
    split
    · split
      · exact ⟨[], (List.append_nil pre).symm⟩
      · exact ⟨_, rfl⟩
    · exact ⟨_, rfl⟩
  · exact ⟨[], (List.append_nil pre).symm⟩

/-- C9 (amended): a URL *containing the substring* `news.google.com`
(anywhere — the code tests `strings.Contains` on the whole URL, not the
host) makes `extractFinalURLFromGoogleNews` first issue the priming GET
to `https://www.google.com`, then wait one rate-limit interval, then
issue the redirect-following GET with the parent-site referer; a URL not
containing the substring goes straight to `resolveRedirects`. -/
theorem googleNews_priming_iff_contains (env : Env) (u : String)
    (hg : env.newRequestOK "https://www.google.com" = true)
    (hu : env.newRequestOK u = true) :
    (strContains u "news.google.com" = true →
      ∃ rest, (extractFinalURLFromGoogleNews env u).1 =
        Ev.get "https://www.google.com" "" :: Ev.wait ::
          Ev.get u "https://www.google.com" :: rest) ∧
    (strContains u "news.google.com" = false →
      (extractFinalURLFromGoogleNews env u).1 = (resolveRedirects env u).1) := by
  have hp : (primeGoogleCookies env).1 = [Ev.get "https://www.google.com" ""] := by
    unfold primeGoogleCookies
    rw [if_pos hg]
  have hr : (resolveRedirectsWithReferer env u "https://www.google.com").1 =
      [Ev.get u "https://www.google.com"] := by
    unfold resolveRedirectsWithReferer
    rw [if_pos hu]
  constructor
  · intro hc
    unfold extractFinalURLFromGoogleNews
    rw [if_pos hc]
    dsimp only
    obtain ⟨rest2, hfb⟩ := googleNewsFallback_trace env u
      ((primeGoogleCookies env).1 ++ [Ev.wait] ++
        (resolveRedirectsWithReferer env u "https://www.google.com").1)
    split
    · split
      · exact ⟨[], by simp [hp, hr]⟩
      · exact ⟨rest2, by simp only [hfb]; simp [hp, hr]⟩
    · exact ⟨rest2, by simp only [hfb]; simp [hp, hr]⟩
  · intro hc
    unfold extractFinalURLFromGoogleNews
    rw [if_neg (by simp [hc])]

/-- C9 counterexample: `u9`'s host is `example.com`, not the
news-aggregator host, yet — because the aggregator marker appears as a
substring of its query string — the code primes Google cookies, waits,
and issues the referer GET for it, contradicting the claim that this
happens *only* for URLs whose host matches the aggregator pattern. -/
theorem googleNews_priming_for_non_aggregator_host :
    hostOf u9 = "example.com" ∧
    hostOf u9 ≠ "news.google.com" ∧
    (extractFinalURLFromGoogleNews envC9 u9).1 =
      [Ev.get "https://www.google.com" "", Ev.wait, Ev.get u9 "https://www.google.com"] := by
  refine ⟨by decide, by decide, by decide⟩

theorem googleNews_priming_iff_contains_witness :
    (envC9.newRequestOK "https://www.google.com" = true ∧
      envC9.newRequestOK u9 = true ∧
      strContains u9 "news.google.com" = true) ∧
    (∃ rest, (extractFinalURLFromGoogleNews envC9 u9).1 =
      Ev.get "https://www.google.com" "" :: Ev.wait ::
        Ev.get u9 "https://www.google.com" :: rest) :=
  ⟨⟨rfl, rfl, by decide⟩,
    (googleNews_priming_iff_contains envC9 u9 rfl rfl).1 (by decide)⟩

theorem findAttr_rewriteAttrs (env : Env) (uuid base key : String) :
    ∀ attrs : List Attribute,
      findAttr key (rewriteAttrs env uuid base key attrs) =
        (findAttr key attrs).map (fun v =>
          if resolveURL env base v = "" then v
          else "/data/assets/" ++
            generateAssetFileName env (resolveURL env base v) uuid) := by
  intro attrs
  induction attrs with
  | nil => rfl
  | cons a rest ih =>
    by_cases h : a.key = key
    · by_cases hres : resolveURL env base a.val = ""
      · simp [rewriteAttrs, findAttr, h, hres]
      · simp [rewriteAttrs, findAttr, h, hres]
    · simp [rewriteAttrs, findAttr, h, ih]

theorem collectRefVals_modifyNode (env : Env) (uuid base : String) :
    ∀ n : HNode,
      collectRefVals (modifyNode env uuid base n) =
        (collectRefVals n).map (fun v =>
          if resolveURL env base v = "" then v
          else "/data/assets/" ++
            generateAssetFileName env (resolveURL env base v) uuid) := by
  intro n
  induction n with
  | nil => rfl
  | node ty data attrs child sib ih1 ih2 =>
    simp only [modifyNode, collectRefVals, List.map_append, ih1, ih2]
    congr 1
    congr 1
    by_cases hcond : ty = NodeType.elementNode ∧ attrNameFor data ≠ ""
    · rw [if_pos hcond, findAttr_rewriteAttrs]
      cases hfa : findAttr (attrNameFor data) attrs <;>
        simp [hcond.1, hcond.2, hfa]
    · rw [if_neg hcond]
      by_cases hty : ty = NodeType.elementNode
      · have han : attrNameFor data = "" := by
          by_contra hn
          exact hcond ⟨hty, hn⟩
        simp [hty, han]
      · simp [hty]

theorem extractNode_eq_collect (env : Env) (base : String) :
    ∀ n : HNode,
      extractNode env base n =
        ((collectRefVals n).map (resolveURL env base)).filter (fun s => s != "") := by
  intro n
  induction n with
  | nil => rfl
  | node ty data attrs child sib ih1 ih2 =>
    simp only [extractNode, collectRefVals, List.map_append, List.filter_append, ih1, ih2]
    congr 1
    congr 1
    by_cases hty : ty = NodeType.elementNode
    · by_cases han : attrNameFor data = ""
      · simp [hty, han]
      · simp only [hty, if_pos rfl, han, if_neg han]
        cases hfa : findAttr (attrNameFor data) attrs with
        | none => simp [han]
        | some v =>
          by_cases hres : resolveURL env base v = ""
          · simp [hres, han]
          · simp [hres, han]
    · simp [hty]

/-- C7: both passes parse the same string into the same tree and apply
the identical resolution rule to the identical attribute positions:
`extractAssetsFromHTML` returns exactly the resolvable reference values
(resolved, empty resolutions skipped), `modifyHTMLPaths` renders the
rewritten tree, and in that rewritten tree every reference position that
resolved to `r` now reads `/data/assets/` ++
`generateAssetFileName r uuid` — the very file name the asset loop saves
under — while every position that did not resolve is left unchanged. -/
theorem extract_rewrite_agree (env : Env) (uuid base html : String) :
    extractAssetsFromHTML env html base =
      .ok (((collectRefVals (env.parseHTML html)).map (resolveURL env base)).filter
        (fun s => s != "")) ∧
    modifyHTMLPaths env html uuid base =
      .ok (env.renderHTML (modifyNode env uuid base (env.parseHTML html))) ∧
    collectRefVals (modifyNode env uuid base (env.parseHTML html)) =
      (collectRefVals (env.parseHTML html)).map (fun v =>
        if resolveURL env base v = "" then v
        else "/data/assets/" ++
          generateAssetFileName env (resolveURL env base v) uuid) :=
  ⟨by
    show Except.ok (extractNode env base (env.parseHTML html)) = _
    rw [extractNode_eq_collect env base (env.parseHTML html)],
   rfl,
   collectRefVals_modifyNode env uuid base (env.parseHTML html)⟩

end Archiver
